import Mathlib

set_option maxRecDepth 10000
set_option linter.unusedVariables false

/-!
Shallow embedding of the cron, channel and HTTP-server core of the
`nthnn/purple` repository (the Purple / Netlet / Aetherium triplicated
framework), together with theorems settling the frozen claims about it.

The cron parser is embedded from `src/aetherium/cron/parser.cpp`
(namespace `Netlet::Cron`, the only `CronParser` implementation in the
snapshot), the next-fire search from `src/netlet/cron/schedule.cpp`,
the channel from `include/purple/concurrent/channel.hpp`, and the
HTTP pieces from `src/purple/net/weblet.cpp`.

Strings are modelled as `List Char`; `std::set<int>` as `Finset ℤ`;
exceptions as `Except`/`Option`; instants as seconds since the Unix
epoch (`ℕ`), with `std::gmtime`'s civil-from-days conversion embedded
directly (proleptic Gregorian, UTC, no leap seconds).
-/

namespace Purple

instance {α : Type} [DecidableEq α] : DecidableEq (Option α)
  | some a, some b => decidable_of_iff (a = b) (by simp)
  | some _, none => isFalse (by simp)
  | none, some _ => isFalse (by simp)
  | none, none => isTrue rfl

instance {ε α : Type} [DecidableEq ε] [DecidableEq α] :
    DecidableEq (Except ε α)
  | .ok a, .ok b => decidable_of_iff (a = b) (by simp)
  | .ok _, .error _ => isFalse (by simp)
  | .error _, .ok _ => isFalse (by simp)
  | .error a, .error b => decidable_of_iff (a = b) (by simp)

/-- Accumulator loop behind `splitGetline`: reads characters of the current
segment; on the delimiter, emits the segment and continues unless the
delimiter was the final character (in which case `std::getline` fails at EOF
and no further item is produced). -/
def splitGetlineAux (d : Char) : List Char → List Char → List (List Char)
  | [], seg => [seg.reverse]
  | c :: rest, seg =>
    if c = d then
      match rest with
      | [] => [seg.reverse]
      | _ => seg.reverse :: splitGetlineAux d rest []
    else splitGetlineAux d rest (c :: seg)

/-- Split a string on a delimiter the way repeated `std::getline(ss, item, d)`
does: an empty input yields no items, and a trailing delimiter does not
produce a trailing empty item. -/
def splitGetline (d : Char) : List Char → List (List Char)
  | [] => []
  | s => splitGetlineAux d s []

/-- Numeric value of a list of decimal digit characters. -/
def digitsVal (l : List Char) : ℕ :=
  l.foldl (fun acc c => 10 * acc + (c.toNat - 48)) 0

/-- Embedding of `std::stoi` / `std::stol` on an ASCII string: skip leading
whitespace, read an optional sign, then at least one decimal digit (further
non-digit characters are ignored, as `stoi` stops at the first non-digit).
`none` models the `std::invalid_argument` throw when no digits are found.
Overflow (`std::out_of_range`) is not modelled; the integers relevant to the
claims are small. -/
def stoi (s : List Char) : Option ℤ :=
  let s1 := s.dropWhile (·.isWhitespace)
  let (sign, s2) : ℤ × List Char :=
    match s1 with
    | '+' :: r => (1, r)
    | '-' :: r => (-1, r)
    | r => (1, r)
  let digits := s2.takeWhile (·.isDigit)
  if digits.isEmpty then none
  else some (sign * (digitsVal digits : ℤ))

namespace Cron

/-- The five parsed cron field sets (`CronParsedFields`), each a
`std::set<int>` in the source. -/
structure CronParsedFields where
  minutes : Finset ℤ
  hours : Finset ℤ
  days_of_month : Finset ℤ
  months : Finset ℤ
  days_of_week : Finset ℤ

instance : DecidableEq CronParsedFields := fun a b =>
  decidable_of_iff (a.minutes = b.minutes ∧ a.hours = b.hours ∧
    a.days_of_month = b.days_of_month ∧ a.months = b.months ∧
    a.days_of_week = b.days_of_week)
    (by cases a; cases b; simp [CronParsedFields.mk.injEq])

/-- `CronParser::month_names`: exact-match lookup table JAN..DEC → 1..12. -/
def month_names : List (List Char × ℤ) :=
  [("JAN".toList, 1), ("FEB".toList, 2), ("MAR".toList, 3), ("APR".toList, 4),
   ("MAY".toList, 5), ("JUN".toList, 6), ("JUL".toList, 7), ("AUG".toList, 8),
   ("SEP".toList, 9), ("OCT".toList, 10), ("NOV".toList, 11),
   ("DEC".toList, 12)]

/-- `CronParser::day_of_week_names`: exact-match lookup table SUN..SAT → 0..6,
plus the alias entry mapping the literal token `7` to `0`. -/
def day_of_week_names : List (List Char × ℤ) :=
  [("SUN".toList, 0), ("MON".toList, 1), ("TUE".toList, 2), ("WED".toList, 3),
   ("THU".toList, 4), ("FRI".toList, 5), ("SAT".toList, 6), ("7".toList, 0)]

/-- `CronParser::conv_name_to_value`: try the month table (when enabled),
then the day-of-week table (when enabled) — both by exact string match, as
`std::map::find` does — and fall back to `std::stoi`.  `none` models the
`std::invalid_argument` throw from `stoi`. -/
def conv_name_to_value (name : List Char) (parse_months parse_days_of_week :
    Bool) : Option ℤ :=
  match (if parse_months then (month_names.find? (·.1 = name)).map (·.2)
         else none) with
  | some v => some v
  | none =>
    match (if parse_days_of_week then
             (day_of_week_names.find? (·.1 = name)).map (·.2)
           else none) with
    | some v => some v
    | none => stoi name

/-- Errors a cron-parse run can end in: `invalidArg` models a thrown
`std::invalid_argument`; `hang` models non-termination of the step-expansion
loop (`for (i = start; i <= end; i += step)` never exits when `step ≤ 0`
and `start ≤ end`). -/
inductive CronErr where
  | invalidArg : CronErr
  | hang : CronErr
deriving DecidableEq

/-- Fuel-bounded embedding of the step-expansion loop
`for (int i = startVal; i <= endVal; i += step) if (min ≤ i ≤ max) insert i`.
When `step ≥ 1` the loop performs at most `endV - startV + 1` condition
checks, so any fuel of at least `(endV - startV).toNat + 2` makes the
embedding return `some`; when `step ≤ 0` and `i ≤ endV` the loop never
exits, and the embedding returns `none` for every fuel. -/
def stepLoop (minV maxV endV step : ℤ) : ℕ → ℤ → Finset ℤ →
    Option (Finset ℤ)
  | 0, _, _ => none
  | fuel + 1, i, acc =>
    if i ≤ endV then
      stepLoop minV maxV endV step fuel (i + step)
        (if minV ≤ i ∧ i ≤ maxV then insert i acc else acc)
    else
      some acc

/-- One comma-separated item of `CronParser::parse_field`, folded over the
accumulated value set. -/
def parseItem (minV maxV : ℤ) (parse_months parse_days_of_week : Bool)
    (acc : Finset ℤ) (item : List Char) : Except CronErr (Finset ℤ) :=
  if item = "*".toList then
    .ok (acc ∪ Finset.Icc minV maxV)
  else if item.contains '/' then
    let slashPos := (item.takeWhile (· ≠ '/')).length
    let base := item.take slashPos
    let stepStr := item.drop (slashPos + 1)
    match stoi stepStr with
    | none => .error .invalidArg
    | some step =>
      let startEnd : Except CronErr (ℤ × ℤ) :=
        if base = "*".toList then .ok (minV, maxV)
        else if base.contains '-' then
          let dashPos := (base.takeWhile (· ≠ '-')).length
          match conv_name_to_value (base.take dashPos) parse_months
              parse_days_of_week,
            conv_name_to_value (base.drop (dashPos + 1)) parse_months
              parse_days_of_week with
          | some a, some b => .ok (a, b)
          | _, _ => .error .invalidArg
        else
          match conv_name_to_value base parse_months parse_days_of_week with
          | some a => .ok (a, a)
          | none => .error .invalidArg
      match startEnd with
      | .error e => .error e
      | .ok (startVal, endVal) =>
        match stepLoop minV maxV endVal step ((endVal - startVal).toNat + 2)
            startVal acc with
        | none => .error .hang
        | some s => .ok s
  else if item.contains '-' then
    let dashPos := (item.takeWhile (· ≠ '-')).length
    match conv_name_to_value (item.take dashPos) parse_months
        parse_days_of_week,
      conv_name_to_value (item.drop (dashPos + 1)) parse_months
        parse_days_of_week with
    | some s, some e =>
      if s > e then
        .ok (acc ∪ Finset.Icc s maxV ∪ Finset.Icc minV e)
      else
        .ok (acc ∪ Finset.Icc s e)
    | _, _ => .error .invalidArg
  else
    match conv_name_to_value item parse_months parse_days_of_week with
    | none => .error .invalidArg
    | some v =>
      if minV ≤ v ∧ v ≤ maxV then .ok (insert v acc)
      else .error .invalidArg

/-- `CronParser::parse_field`: split the field on `,`, process each item,
and reject an empty resulting set.  Note that a plain `a-b` range inserts
its values with no range check, and a stepped item silently filters
out-of-range values; only bare values are range-checked with a throw. -/
def parse_field (field : List Char) (minV maxV : ℤ)
    (parse_months parse_days_of_week : Bool) : Except CronErr (Finset ℤ) := do
  let items := splitGetline ',' field
  let values ← items.foldlM
    (parseItem minV maxV parse_months parse_days_of_week) ∅
  if values = ∅ then .error .invalidArg else .ok values

/-- `CronParser::parse`: split on single spaces into exactly five fields
(minute, hour, day-of-month, month, day-of-week) and parse each with its
bounds and name flags; the day-of-week field uses bounds 0..7. -/
def parse (cron_string : List Char) : Except CronErr CronParsedFields := do
  let segments := splitGetline ' ' cron_string
  if h : segments.length = 5 then
    let minutes ← parse_field segments[0] 0 59 false false
    let hours ← parse_field segments[1] 0 23 false false
    let days_of_month ← parse_field segments[2] 1 31 false false
    let months ← parse_field segments[3] 1 12 true false
    let days_of_week ← parse_field segments[4] 0 7 false true
    return ⟨minutes, hours, days_of_month, months, days_of_week⟩
  else
    .error .invalidArg

/-! Time arithmetic of `std::gmtime` on a non-negative `time_t`, at the
granularity the schedule code reads back: seconds, minutes, hours, the day
index since the epoch, the weekday, and the civil (year, month, day) triple.
The civil conversion is the standard days-to-civil algorithm for the
proleptic Gregorian calendar (1970-01-01 is day 0, a Thursday). -/

/-- `tm_sec` of an instant given in seconds since the epoch. -/
def secOf (t : ℕ) : ℕ := t % 60

/-- `tm_min` of an instant given in seconds since the epoch. -/
def minuteOf (t : ℕ) : ℕ := t / 60 % 60

/-- `tm_hour` of an instant given in seconds since the epoch. -/
def hourOf (t : ℕ) : ℕ := t / 3600 % 24

/-- Days since 1970-01-01 of an instant given in seconds since the epoch. -/
def dayIndex (t : ℕ) : ℕ := t / 86400

/-- `tm_wday` (0 = Sunday) of a day index; day 0 was a Thursday. -/
def wdayOfDay (d : ℕ) : ℕ := (d + 4) % 7

/-- Civil `(year, month 1..12, day-of-month)` of a day index, the proleptic
Gregorian conversion `std::gmtime` performs; the month component equals
`tm_mon + 1`. -/
def civilOfDay (d : ℕ) : ℕ × ℕ × ℕ :=
  let z := d + 719468
  let era := z / 146097
  let doe := z % 146097
  let yoe := (doe - doe / 1460 + doe / 36524 - doe / 146096) / 365
  let y := yoe + era * 400
  let doy := doe - (365 * yoe + yoe / 4 - yoe / 100)
  let mp := (5 * doy + 2) / 153
  let day := doy - (153 * mp + 2) / 5 + 1
  let m := if mp < 10 then mp + 3 else mp - 9
  (if m ≤ 2 then y + 1 else y, m, day)

/-- Month 1..12 (that is, `tm_mon + 1`) of a day index. -/
def monthOfDay (d : ℕ) : ℕ := (civilOfDay d).2.1

/-- `tm_mday` of a day index. -/
def mdayOfDay (d : ℕ) : ℕ := (civilOfDay d).2.2

/-- `is_dom_wildcard` of `CronSchedule::get_next_runtime`: the day-of-month
set has exactly 31 elements. -/
def is_dom_wildcard (F : CronParsedFields) : Bool :=
  F.days_of_month.card == 31

/-- `is_dow_wildcard` of `CronSchedule::get_next_runtime`: the day-of-week
set has exactly 7 or exactly 8 elements. -/
def is_dow_wildcard (F : CronParsedFields) : Bool :=
  (F.days_of_week.card == 7) || (F.days_of_week.card == 8)

/-- `current_dow` of the search loop: `tm_wday`, except that when the parsed
day-of-week set contains 7 a Sunday (`tm_wday == 0`) is renamed to 7. -/
def currentDow (F : CronParsedFields) (d : ℕ) : ℕ :=
  if (7 : ℤ) ∈ F.days_of_week ∧ wdayOfDay d = 0 then 7 else wdayOfDay d

/-- `day_match_criteria_met` of the search loop: both wildcards — match;
exactly one wildcard — the other field constrains; neither — OR semantics.
Depends only on the day index (and the parsed sets). -/
def dayCriteria (F : CronParsedFields) (d : ℕ) : Bool :=
  if is_dom_wildcard F && is_dow_wildcard F then true
  else if is_dom_wildcard F then decide ((currentDow F d : ℤ) ∈ F.days_of_week)
  else if is_dow_wildcard F then decide ((mdayOfDay d : ℤ) ∈ F.days_of_month)
  else decide ((mdayOfDay d : ℤ) ∈ F.days_of_month) ||
    decide ((currentDow F d : ℤ) ∈ F.days_of_week)

/-- An instant satisfies the five field sets (at minute granularity) exactly
when the search loop's four checks all pass at that instant: month in set,
day criteria met, hour in set, minute in set. -/
def timeMatches (F : CronParsedFields) (t : ℕ) : Bool :=
  decide ((monthOfDay (dayIndex t) : ℤ) ∈ F.months) &&
    dayCriteria F (dayIndex t) &&
    decide ((hourOf t : ℤ) ∈ F.hours) &&
    decide ((minuteOf t : ℤ) ∈ F.minutes)

/-- The iteration guard of `get_next_runtime`: `365 * 24 * 60 * 2`. -/
def searchBound : ℕ := 365 * 24 * 60 * 2

/-- The per-iteration body of `CronSchedule::get_next_runtime`, with fuel
standing for the remaining iterations of the guarded `for` loop; `none`
models the `std::runtime_error` thrown when the guard is exhausted.
Check order is as in the source: month (else advance one minute — the
source also writes dead stores into the local `tm` there), then the day
criteria (else advance to the next day at 00:00 via
`24h - tm_hour·h - tm_min·min - tm_sec·s`), then hour (else advance to the
next hour at `:00`), then minute (else advance one minute); all four in
set — return the cursor. -/
def nextAux (F : CronParsedFields) : ℕ → ℕ → Option ℕ
  | 0, _ => none
  | fuel + 1, cur =>
    if (monthOfDay (dayIndex cur) : ℤ) ∈ F.months then
      if dayCriteria F (dayIndex cur) then
        if (hourOf cur : ℤ) ∈ F.hours then
          if (minuteOf cur : ℤ) ∈ F.minutes then some cur
          else nextAux F fuel (cur + 60)
        else nextAux F fuel (cur + (3600 - 60 * minuteOf cur - secOf cur))
      else nextAux F fuel
        (cur + (86400 - 3600 * hourOf cur - 60 * minuteOf cur - secOf cur))
    else nextAux F fuel (cur + 60)

/-- `CronSchedule::get_next_runtime`: round the reference up to the next
whole minute when its seconds are positive, then run the bounded search. -/
def get_next_runtime (F : CronParsedFields) (t : ℕ) : Option ℕ :=
  let start := if t % 60 > 0 then t + (60 - t % 60) else t
  nextAux F searchBound start

/-! Embedding of `CronScheduler::add_job` (`src/netlet/cron/schedule.cpp`).
The job map is projected to its key set (a list of ids); the stored
callback and description play no role in the claims.  `CronJob`'s
constructor parses the expression (`std::invalid_argument` on bad syntax)
and then computes the initial next-fire from `now()`
(`std::runtime_error` when the two-year iteration guard is exhausted).
`add_job` catches only `std::invalid_argument`. -/

/-- Outcome of a call to `CronScheduler::add_job`. -/
inductive AddJobOutcome where
  | returnedFalse : AddJobOutcome
  | added : ℕ → AddJobOutcome
  | raisedRuntimeError : AddJobOutcome
  | hung : AddJobOutcome
deriving DecidableEq

/-- `CronScheduler::add_job`: duplicate id → `false`; `CronJob` construction
throwing `std::invalid_argument` (cron syntax) → caught, `false`;
`std::runtime_error` from the initial `get_next_runtime` → not caught,
propagates to the caller; otherwise the job is inserted and `true`
returned.  The second component is the job map's key set afterwards. -/
def add_job (jobs : List String) (jobId : String) (cron_string : List Char)
    (now : ℕ) : AddJobOutcome × List String :=
  if jobId ∈ jobs then (.returnedFalse, jobs)
  else
    match parse cron_string with
    | .error .invalidArg => (.returnedFalse, jobs)
    | .error .hang => (.hung, jobs)
    | .ok F =>
      match get_next_runtime F now with
      | none => (.raisedRuntimeError, jobs)
      | some r => (.added r, jobId :: jobs)

/-! Spec-side predicates the C6 claim describes, for comparison with the
code-side `is_dom_wildcard` / `is_dow_wildcard`. -/

/-- The claim's reading of a day-of-month wildcard: the set equals the full
range 1..31. -/
def dom_wildcard_spec (F : CronParsedFields) : Prop :=
  F.days_of_month = Finset.Icc 1 31

/-- The claim's reading of a day-of-week wildcard: the set covers every
weekday 0..6, counting 7 as 0. -/
def dow_wildcard_spec (F : CronParsedFields) : Prop :=
  ∀ w ∈ Finset.Icc (0 : ℤ) 6,
    w ∈ F.days_of_week ∨ (w = 0 ∧ (7 : ℤ) ∈ F.days_of_week)

instance (F : CronParsedFields) : Decidable (dow_wildcard_spec F) :=
  inferInstanceAs (Decidable (∀ w ∈ Finset.Icc (0 : ℤ) 6,
    w ∈ F.days_of_week ∨ (w = 0 ∧ (7 : ℤ) ∈ F.days_of_week)))

/-- The parse result of `60-70 * * * *`: an expression whose minute set
lies entirely outside the reachable minute values 0..59, so its next-fire
search can never succeed. -/
def oobFields : CronParsedFields :=
  ⟨Finset.Icc 60 70, Finset.Icc 0 23, Finset.Icc 1 31, Finset.Icc 1 12,
    Finset.Icc 0 7⟩

end Cron

namespace Concurrent

/-! Embedding of `Purple::Concurrent::Channel<T>`
(`include/purple/concurrent/channel.hpp`).  The state is the fields the
operations read and write under the single mutex: the `closed` flag, the
`capacity`, the FIFO `data` deque, and the `get_wait_count` receiver
counter.  Operations are modelled as the atomic steps a caller observes
under the lock; an operation whose wait predicate cannot be satisfied in
the current state is `blocked` (it would suspend on a condition variable —
a concurrency aspect outside this sequential model).  The rendezvous
acknowledgement wait (`send_ack`) is likewise a cross-thread handshake;
`sent` here covers the enqueue that a waiting receiver then drains. -/

/-- The observable state of a `Channel<T>`. -/
structure Chan (α : Type) where
  closed : Bool
  capacity : ℕ
  data : List α
  get_wait_count : ℤ
deriving DecidableEq

/-- Result of a `send` call: the `std::runtime_error` throw on a closed
channel (which leaves the state untouched — carried for inspection), a
completed enqueue, or suspension. -/
inductive SendResult (α : Type) where
  | closedErr : Chan α → SendResult α
  | sent : Chan α → SendResult α
  | blocked : SendResult α
deriving DecidableEq

/-- `Channel::send`: throw immediately when closed (before touching the
queue); in rendezvous mode enqueue once a receiver is registered; in
bounded mode enqueue when the queue has room; otherwise wait. -/
def send {α : Type} (c : Chan α) (v : α) : SendResult α :=
  if c.closed then .closedErr c
  else if c.capacity = 0 then
    if c.get_wait_count > 0 then .sent { c with data := c.data ++ [v] }
    else .blocked
  else if c.data.length < c.capacity then
    .sent { c with data := c.data ++ [v] }
  else .blocked

/-- `Channel::receive`: in rendezvous mode register as a waiting receiver;
then, when the channel is closed or has data, either dequeue the front
(`(value, true)`) or report drained-and-closed (`(T{}, false)`), undoing
the registration before returning; with the channel open and empty the
call suspends (`none`). -/
def receive {α : Type} [Inhabited α] (c : Chan α) :
    Option ((α × Bool) × Chan α) :=
  let c1 := if c.capacity = 0 then
    { c with get_wait_count := c.get_wait_count + 1 } else c
  if c1.closed || !c1.data.isEmpty then
    match c1.data with
    | v :: rest =>
      some ((v, true),
        if c1.capacity = 0 then
          { c1 with data := rest, get_wait_count := c1.get_wait_count - 1 }
        else { c1 with data := rest })
    | [] =>
      some ((default, false),
        if c1.capacity = 0 then
          { c1 with get_wait_count := c1.get_wait_count - 1 }
        else c1)
  else none

/-- `Channel::close`: a no-op when already closed, else mark closed (the
`notify_all` calls have no effect on the modelled state). -/
def close {α : Type} (c : Chan α) : Chan α :=
  if c.closed then c else { c with closed := true }

/-- Repeatedly `receive`, collecting values while calls return
`(value, true)`; stops on `(zero, false)` or suspension. -/
def drain {α : Type} [Inhabited α] : ℕ → Chan α → List α
  | 0, _ => []
  | fuel + 1, c =>
    match receive c with
    | some ((v, true), c2) => v :: drain fuel c2
    | _ => []

end Concurrent

namespace Net

/-! Embedding of the HTTP response pieces of `src/purple/net/weblet.cpp`
that the claims touch: the `Response` record with its constructor
defaults, `Weblet::handle_error` (error-page selection and reason
phrase), `Weblet::build_response_str` (serialization), and the
`Content-Length` step of `Weblet::handle_client`.  The filesystem is a
parameter (`file_opens`, `file_contents`); header maps are association
lists with unique keys (the parser's last-writer-wins has already been
applied).  `std::map` key ordering of header serialization is not
modelled (no claim depends on it). -/

/-- `Purple::Net::Response`, default-constructed as status `200 OK` with
empty headers, cookies and contents. -/
structure Response where
  headers : List (String × String)
  cookies : List (String × String)
  contents : String
  status_code : ℤ
  status_message : String
deriving DecidableEq

/-- The `Response()` constructor's initializer list. -/
def Response.mkDefault : Response := ⟨[], [], "", 200, "OK"⟩

/-- `std::map` assignment `headers[name] = value`: replace any existing
entry, else insert. -/
def setHeader (hs : List (String × String)) (name value : String) :
    List (String × String) :=
  if hs.any (·.1 = name) then
    hs.map (fun p => if p.1 = name then (name, value) else p)
  else hs ++ [(name, value)]

/-- `Weblet::handle_error`: start from a default response with
`status_message = "Not Found"`, override it for 404 (`"Not Found"`) and
500 (`"Internal Server Error"`) only; then, if an error page is
registered for the code and its file opens, serve it with status message
`"Error Page"` and `text/html`; if registered but unreadable, an HTML
failure body; otherwise a plain-text `"Error N: <message>"` body with the
message defaulting to `"An unexpected error occurred."`. -/
def handle_error (error_handlers : List (ℤ × String))
    (file_opens : String → Bool) (file_contents : String → String)
    (error_code : ℤ) (message : String) : Response :=
  let r0 := { Response.mkDefault with
    status_code := error_code, status_message := "Not Found" }
  let r1 :=
    if error_code = 404 then { r0 with status_message := "Not Found" }
    else if error_code = 500 then
      { r0 with status_message := "Internal Server Error" }
    else r0
  match (error_handlers.find? (·.1 = error_code)).map (·.2) with
  | some errorfilepath =>
    if file_opens errorfilepath then
      { r1 with
        contents := file_contents errorfilepath,
        status_message := "Error Page",
        headers := setHeader r1.headers "Content-Type" "text/html" }
    else
      { r1 with
        contents := "<h1>" ++ toString error_code ++
          " - Error</h1><p>Failed to load error page: " ++ errorfilepath ++
          "</p>" ++
          (if message ≠ "" then "<p>" ++ message ++ "</p>" else ""),
        headers := setHeader r1.headers "Content-Type" "text/html" }
  | none =>
    { r1 with
      headers := setHeader r1.headers "Content-Type" "text/plain",
      contents := "Error " ++ toString error_code ++ ": " ++
        (if message = "" then "An unexpected error occurred." else message) }

/-- `Weblet::build_response_str`: status line, `Content-Length`, headers,
`Set-Cookie` lines (the source writes only the cookie's value), blank
line, body.  `String.length` models `std::string::length` (the bodies in
the claims are ASCII). -/
def build_response_str (r : Response) : String :=
  "HTTP/1.1 " ++ toString r.status_code ++ " " ++ r.status_message ++
    "\r\n" ++
  "Content-Length: " ++ toString r.contents.length ++ "\r\n" ++
  String.join (r.headers.map (fun h => h.1 ++ ": " ++ h.2 ++ "\r\n")) ++
  String.join (r.cookies.map (fun c => "Set-Cookie: " ++ c.2 ++ "\r\n")) ++
  "\r\n" ++ r.contents

/-- The `Content-Length` step of `Weblet::handle_client`: with no such
header the length stays `0` and handling proceeds; with one, `std::stol`
is tried and a throw is answered with the built-in 400 response
(`.error`, after which the handler returns and the connection closes —
the request is never routed). -/
def content_length_step (request_headers : List (String × String))
    (error_handlers : List (ℤ × String)) (file_opens : String → Bool)
    (file_contents : String → String) : Except Response ℤ :=
  match (request_headers.find? (·.1 = "Content-Length")).map (·.2) with
  | none => .ok 0
  | some v =>
    match Purple.stoi v.toList with
    | some n => .ok n
    | none => .error (handle_error error_handlers file_opens file_contents
        400 "Bad Request: Invalid Content-Length header.")

end Net

namespace Cron

/-! Soundness of the bounded next-fire search. -/

theorem nextDay_eq (cur : ℕ) :
    cur + (86400 - 3600 * hourOf cur - 60 * minuteOf cur - secOf cur)
      = (dayIndex cur + 1) * 86400 := by
  unfold hourOf minuteOf secOf dayIndex; omega

theorem nextHour_eq (cur : ℕ) :
    cur + (3600 - 60 * minuteOf cur - secOf cur)
      = (cur / 3600 + 1) * 3600 := by
  unfold minuteOf secOf; omega

theorem sameDay_of_lt {cur s : ℕ} (h1 : cur ≤ s)
    (h2 : s < (dayIndex cur + 1) * 86400) : dayIndex s = dayIndex cur := by
  unfold dayIndex at h2 ⊢; omega

theorem sameHour_of_lt {cur s : ℕ} (h1 : cur ≤ s)
    (h2 : s < (cur / 3600 + 1) * 3600) : hourOf s = hourOf cur := by
  unfold hourOf
  have : s / 3600 = cur / 3600 := by omega
  rw [this]

/-- Every `some` result of the fuelled search is at or after the cursor, is
a whole minute, satisfies the five field sets, and no whole minute between
the cursor and the result satisfies them. -/
theorem nextAux_sound (F : CronParsedFields) :
    ∀ fuel cur r, nextAux F fuel cur = some r → cur % 60 = 0 →
      cur ≤ r ∧ r % 60 = 0 ∧ timeMatches F r = true ∧
        ∀ s, cur ≤ s → s < r → s % 60 = 0 → timeMatches F s = false := by
  intro fuel
  induction fuel with
  | zero => intro cur r h _; simp [nextAux] at h
  | succ n ih =>
    intro cur r h hc
    simp only [nextAux] at h
    by_cases h1 : (monthOfDay (dayIndex cur) : ℤ) ∈ F.months
    · rw [if_pos h1] at h
      by_cases h2 : dayCriteria F (dayIndex cur) = true
      · rw [if_pos h2] at h
        by_cases h3 : (hourOf cur : ℤ) ∈ F.hours
        · rw [if_pos h3] at h
          by_cases h4 : (minuteOf cur : ℤ) ∈ F.minutes
          · rw [if_pos h4] at h
            obtain rfl : cur = r := by simpa using h
            refine ⟨le_refl _, hc, ?_, ?_⟩
            · simp [timeMatches, h1, h2, h3, h4]
            · intro s hs1 hs2 _; omega
          · rw [if_neg h4] at h
            obtain ⟨ha, hb, hm, hmin⟩ := ih (cur + 60) r h (by omega)
            refine ⟨by omega, hb, hm, ?_⟩
            intro s hs1 hs2 hs3
            by_cases hlt : s < cur + 60
            · obtain rfl : s = cur := by omega
              simp [timeMatches, h4]
            · exact hmin s (by omega) hs2 hs3
        · rw [if_neg h3] at h
          have hstep := nextHour_eq cur
          obtain ⟨ha, hb, hm, hmin⟩ := ih _ r h (by omega)
          refine ⟨?_, hb, hm, ?_⟩
          · have : cur < (cur / 3600 + 1) * 3600 := by omega
            omega
          · intro s hs1 hs2 hs3
            by_cases hlt : s < cur + (3600 - 60 * minuteOf cur - secOf cur)
            · have hsame : hourOf s = hourOf cur :=
                sameHour_of_lt hs1 (by omega)
              have : ¬ ((hourOf s : ℤ) ∈ F.hours) := by rw [hsame]; exact h3
              simp [timeMatches, this]
            · exact hmin s (by omega) hs2 hs3
      · rw [if_neg h2] at h
        have hstep := nextDay_eq cur
        obtain ⟨ha, hb, hm, hmin⟩ := ih _ r h (by omega)
        refine ⟨?_, hb, hm, ?_⟩
        · have : cur < (dayIndex cur + 1) * 86400 := by unfold dayIndex; omega
          omega
        · intro s hs1 hs2 hs3
          by_cases hlt : s <
              cur + (86400 - 3600 * hourOf cur - 60 * minuteOf cur -
                secOf cur)
          · have hsame : dayIndex s = dayIndex cur :=
              sameDay_of_lt hs1 (by omega)
            have : ¬ (dayCriteria F (dayIndex s) = true) := by
              rw [hsame]; exact h2
            simp only [timeMatches, Bool.and_eq_false_iff]
            simp only [Bool.not_eq_true] at this
            simp [this]
          · exact hmin s (by omega) hs2 hs3
    · rw [if_neg h1] at h
      obtain ⟨ha, hb, hm, hmin⟩ := ih (cur + 60) r h (by omega)
      refine ⟨by omega, hb, hm, ?_⟩
      intro s hs1 hs2 hs3
      by_cases hlt : s < cur + 60
      · obtain rfl : s = cur := by omega
        simp [timeMatches, h1]
      · exact hmin s (by omega) hs2 hs3

/-- C1: for every cron expression that parses successfully with all values
in their fields' natural ranges, and every reference instant `t` (seconds
since the epoch), a returned `get_next_runtime` result is an instant `≥ t`
satisfying the five field sets, and no whole minute strictly between `t`
and the result satisfies them. -/
theorem get_next_runtime_ge_and_minimal (e : List Char)
    (F : CronParsedFields) (t r : ℕ) (hp : parse e = .ok F)
    (hr1 : F.minutes ⊆ Finset.Icc 0 59) (hr2 : F.hours ⊆ Finset.Icc 0 23)
    (hr3 : F.days_of_month ⊆ Finset.Icc 1 31)
    (hr4 : F.months ⊆ Finset.Icc 1 12)
    (hr5 : F.days_of_week ⊆ Finset.Icc 0 7)
    (h : get_next_runtime F t = some r) :
    t ≤ r ∧ timeMatches F r = true ∧
      ∀ s, t < s → s < r → s % 60 = 0 → timeMatches F s = false := by
  simp only [get_next_runtime] at h
  by_cases h0 : t % 60 > 0
  · rw [if_pos h0] at h
    obtain ⟨h1, h2, h3, h4⟩ := nextAux_sound F searchBound _ r h (by omega)
    exact ⟨by omega, h3, fun s hs1 hs2 hs3 => h4 s (by omega) hs2 hs3⟩
  · rw [if_neg h0] at h
    obtain ⟨h1, h2, h3, h4⟩ := nextAux_sound F searchBound _ r h (by omega)
    exact ⟨h1, h3, fun s hs1 hs2 hs3 => h4 s (by omega) hs2 hs3⟩

/-- Witness for C1 at the expression `*/15 0 * * *` and the reference
2025-01-01 00:00:01 UTC: the result is 2025-01-01 00:15:00 UTC, at or
after the reference, matching, with no matching whole minute in
between. -/
theorem get_next_runtime_ge_and_minimal_witness :
    parse ("*/15 0 * * *".toList) = Except.ok
      (⟨{0, 15, 30, 45}, {0}, Finset.Icc 1 31, Finset.Icc 1 12,
        Finset.Icc 0 7⟩ : CronParsedFields) ∧
    get_next_runtime
      ⟨{0, 15, 30, 45}, {0}, Finset.Icc 1 31, Finset.Icc 1 12,
        Finset.Icc 0 7⟩ 1735689601 = some 1735690500 ∧
    (1735689601 ≤ 1735690500 ∧
      timeMatches
        ⟨{0, 15, 30, 45}, {0}, Finset.Icc 1 31, Finset.Icc 1 12,
          Finset.Icc 0 7⟩ 1735690500 = true ∧
      ∀ s, 1735689601 < s → s < 1735690500 → s % 60 = 0 →
        timeMatches
          ⟨{0, 15, 30, 45}, {0}, Finset.Icc 1 31, Finset.Icc 1 12,
            Finset.Icc 0 7⟩ s = false) :=
  ⟨by decide, by decide,
    get_next_runtime_ge_and_minimal ("*/15 0 * * *".toList) _ 1735689601
      1735690500 (by decide) (by decide) (by decide) (by decide) (by decide)
      (by decide) (by decide)⟩

/-- C3: the step-expansion loop of `CronParser::parse_field` on the item
`*/0` (minute field, so start 0, end 59, step 0) exits for no iteration
bound whatsoever — the C++ `for (i = start; i <= end; i += step)` loop
never terminates, rather than raising the `CronSyntax` error the claim
states; accordingly, the field and full-expression embeddings report the
non-termination marker. -/
theorem step_zero_never_terminates :
    (∀ fuel acc, stepLoop 0 59 59 0 fuel 0 acc = none) ∧
    parse_field ("*/0".toList) 0 59 false false = .error .hang ∧
    parse ("*/0 * * * *".toList) = .error .hang := by
  refine ⟨?_, by decide, by decide⟩
  intro fuel
  induction fuel with
  | zero => intro acc; rfl
  | succ n ih =>
    intro acc
    simp only [stepLoop]
    rw [if_pos (by norm_num)]
    simpa using ih _

/-- C4 counterexample: the expression `60-70 * * * *`, whose minute field
consists of the out-of-range range `60-70`, parses successfully and its
minute set contains the out-of-range value 60 — the claim's assertion
that range endpoints are range-checked fails. -/
theorem range_endpoints_unchecked :
    (parse ("60-70 * * * *".toList)).toOption.map
      (fun F => decide ((60 : ℤ) ∈ F.minutes)) = some true := by decide

/-- C4 amended: only bare values are range-checked by
`CronParser::parse_field` — a bare out-of-range value fails (in particular
`60 * * * *` fails with `CronSyntax`); a stepped item silently filters
values to the field range (it adds no out-of-range value, failing only
when the whole field ends empty); a plain `a-b` range is not checked and
may place out-of-range values in the set (e.g. `60-70 * * * *` parses
with minutes 60..70). -/
theorem bare_values_only_range_checked :
    parse ("60 * * * *".toList) = .error .invalidArg ∧
    (∀ (minV maxV endV step : ℤ) (fuel : ℕ) (i : ℤ) (acc s : Finset ℤ),
      stepLoop minV maxV endV step fuel i acc = some s →
      ∀ x ∈ s, x ∈ acc ∨ (minV ≤ x ∧ x ≤ maxV)) ∧
    (parse ("60-70 * * * *".toList)).toOption.map (fun F => F.minutes) =
      some (Finset.Icc 60 70) := by
  refine ⟨by decide, ?_, by decide⟩
  intro minV maxV endV step fuel
  induction fuel with
  | zero => intro i acc s h; exact absurd h (by simp [stepLoop])
  | succ n ih =>
    intro i acc s h x hx
    simp only [stepLoop] at h
    by_cases hle : i ≤ endV
    · rw [if_pos hle] at h
      rcases ih _ _ _ h x hx with hmem | hrange
      · by_cases hin : minV ≤ i ∧ i ≤ maxV
        · rw [if_pos hin] at hmem
          rcases Finset.mem_insert.mp hmem with rfl | hacc
          · exact Or.inr hin
          · exact Or.inl hacc
        · rw [if_neg hin] at hmem
          exact Or.inl hmem
      · exact Or.inr hrange
    · rw [if_neg hle] at h
      obtain rfl : acc = s := by simpa using h
      exact Or.inl hx

/-- Witness for the amended C4 at the minute item `*/15`: the loop
completes with `{0, 15, 30, 45}` and the member 15 is inside the field
range. -/
theorem bare_values_only_range_checked_witness :
    stepLoop 0 59 59 15 61 0 ∅ = some ({0, 15, 30, 45} : Finset ℤ) ∧
    (15 : ℤ) ∈ ({0, 15, 30, 45} : Finset ℤ) ∧
    ((15 : ℤ) ∈ (∅ : Finset ℤ) ∨ ((0 : ℤ) ≤ 15 ∧ (15 : ℤ) ≤ 59)) :=
  ⟨by decide, by decide,
    bare_values_only_range_checked.2.1 0 59 59 15 61 0 ∅
      ({0, 15, 30, 45} : Finset ℤ) (by decide) 15 (by decide)⟩

/-- C5 counterexample: month and day names resolve only in the exact
upper-case spelling of the lookup tables — `jan` is not found and
`std::stoi` then throws, so `* * * jan *` fails with `CronSyntax` instead
of resolving to month 1 as the claim's case-insensitivity asserts
(upper-case `JAN` does resolve to 1). -/
theorem lowercase_names_fail :
    conv_name_to_value ("jan".toList) true false = none ∧
    parse ("* * * jan *".toList) = .error .invalidArg ∧
    (parse ("* * * JAN *".toList)).toOption.map (fun F => F.months) =
      some ({1} : Finset ℤ) := by decide

/-- C5 amended: every name in the month and day-of-week tables resolves to
its value in its exact (upper-case) spelling; lower-case or mixed-case
forms are not found in the tables and fail `std::stoi`, hence fail the
parse with `CronSyntax`. -/
theorem names_resolve_uppercase_only :
    (∀ p ∈ month_names, conv_name_to_value p.1 true false = some p.2) ∧
    (∀ p ∈ day_of_week_names, conv_name_to_value p.1 false true = some p.2) ∧
    conv_name_to_value ("jan".toList) true false = none ∧
    conv_name_to_value ("Jan".toList) true false = none ∧
    conv_name_to_value ("sun".toList) false true = none ∧
    conv_name_to_value ("Sun".toList) false true = none := by decide

/-- Witness for the amended C5 at the table entries `JAN` and `SUN`. -/
theorem names_resolve_uppercase_only_witness :
    conv_name_to_value ("JAN".toList) true false = some 1 ∧
    conv_name_to_value ("SUN".toList) false true = some 0 :=
  ⟨names_resolve_uppercase_only.1 (("JAN".toList, 1)) (by decide),
   names_resolve_uppercase_only.2.1 (("SUN".toList, 0)) (by decide)⟩

/-- C7 counterexample: parsing `* * * * *` succeeds and its day-of-week
set contains the value 7 (the `*` item inserts the full 0..7 field
range), contradicting the claim that no parse result ever contains 7. -/
theorem wildcard_dow_contains_seven :
    (parse ("* * * * *".toList)).toOption.map
      (fun F => decide ((7 : ℤ) ∈ F.days_of_week)) = some true := by decide

/-- C7 amended: only the bare day-of-week token `7` is normalized to 0 at
parse time (via the `"7" → 0` alias entry of the name table); the `*`
item expands to the full bound range 0..7 and a range such as `5-7`
yields `{0, 5, 6, 7}` (its endpoint `7` resolves to 0, wrapping the
range), so parse results can contain 7, which the next-fire search
compensates for by renaming a Sunday to 7 when the set contains 7. -/
theorem dow_seven_alias_is_partial :
    conv_name_to_value ("7".toList) false true = some 0 ∧
    (parse ("* * * * 7".toList)).toOption.map (fun F => F.days_of_week) =
      some ({0} : Finset ℤ) ∧
    (parse ("* * * * *".toList)).toOption.map (fun F => F.days_of_week) =
      some (Finset.Icc 0 7) ∧
    (parse ("* * * * 5-7".toList)).toOption.map (fun F => F.days_of_week) =
      some ({0, 5, 6, 7} : Finset ℤ) := by decide

/-- C6 counterexample: `0 0 * * 0,2-7` parses to a day-of-week set of
size 7 that the code treats as a wildcard although it does not cover
weekday 1 (Monday) — and consequently the next-fire search accepts
Monday 2025-01-06 00:00:00 UTC even though 1 is not in the set. -/
theorem dow_wildcard_not_covering :
    (parse ("0 0 * * 0,2-7".toList)).toOption.map
      (fun F => decide (is_dow_wildcard F = true ∧ ¬ dow_wildcard_spec F ∧
        (1 : ℤ) ∉ F.days_of_week ∧
        get_next_runtime F 1736121600 = some 1736121600)) = some true := by
  decide

/-- C6 amended: for field sets within their natural ranges, the code's
day-of-month wildcard test (`card = 31`) is equivalent to the claim's
(set equals 1..31); the code's day-of-week wildcard test (`card = 7` or
`8`) holds whenever the set covers every weekday counting 7 as 0, but not
only then (a size-7 set containing both 0 and 7 may miss a weekday); and
the day-match criteria use OR semantics exactly when neither field is a
wildcard in the code's sense, with a single wildcard leaving the other
field as the sole constraint. -/
theorem day_match_or_semantics (F : CronParsedFields) (d : ℕ)
    (hdom : F.days_of_month ⊆ Finset.Icc 1 31)
    (hdow : F.days_of_week ⊆ Finset.Icc 0 7) :
    (is_dom_wildcard F = true ↔ dom_wildcard_spec F) ∧
    (dow_wildcard_spec F → is_dow_wildcard F = true) ∧
    (is_dom_wildcard F = true → is_dow_wildcard F = true →
      dayCriteria F d = true) ∧
    (is_dom_wildcard F = true → is_dow_wildcard F = false →
      (dayCriteria F d = true ↔ (currentDow F d : ℤ) ∈ F.days_of_week)) ∧
    (is_dom_wildcard F = false → is_dow_wildcard F = true →
      (dayCriteria F d = true ↔ (mdayOfDay d : ℤ) ∈ F.days_of_month)) ∧
    (is_dom_wildcard F = false → is_dow_wildcard F = false →
      (dayCriteria F d = true ↔ ((mdayOfDay d : ℤ) ∈ F.days_of_month ∨
        (currentDow F d : ℤ) ∈ F.days_of_week))) := by
  have hcard31 : (Finset.Icc (1 : ℤ) 31).card = 31 := by
    rw [Int.card_Icc]; rfl
  have hcard8 : (Finset.Icc (0 : ℤ) 7).card = 8 := by
    rw [Int.card_Icc]; rfl
  refine ⟨?_, ?_, ?_, ?_, ?_, ?_⟩
  · constructor
    · intro h
      have hc : F.days_of_month.card = 31 := by
        simpa [is_dom_wildcard] using h
      show F.days_of_month = Finset.Icc 1 31
      exact Finset.eq_of_subset_of_card_le hdom (by omega)
    · intro h
      have heq : F.days_of_month = Finset.Icc 1 31 := h
      simp [is_dom_wildcard, heq, hcard31]
  · intro hcov
    have h1 : (1 : ℤ) ∈ F.days_of_week := by
      rcases hcov 1 (by decide) with h | ⟨h, _⟩
      · exact h
      · exact absurd h (by norm_num)
    have h2 : (2 : ℤ) ∈ F.days_of_week := by
      rcases hcov 2 (by decide) with h | ⟨h, _⟩
      · exact h
      · exact absurd h (by norm_num)
    have h3 : (3 : ℤ) ∈ F.days_of_week := by
      rcases hcov 3 (by decide) with h | ⟨h, _⟩
      · exact h
      · exact absurd h (by norm_num)
    have h4 : (4 : ℤ) ∈ F.days_of_week := by
      rcases hcov 4 (by decide) with h | ⟨h, _⟩
      · exact h
      · exact absurd h (by norm_num)
    have h5 : (5 : ℤ) ∈ F.days_of_week := by
      rcases hcov 5 (by decide) with h | ⟨h, _⟩
      · exact h
      · exact absurd h (by norm_num)
    have h6 : (6 : ℤ) ∈ F.days_of_week := by
      rcases hcov 6 (by decide) with h | ⟨h, _⟩
      · exact h
      · exact absurd h (by norm_num)
    have hle : F.days_of_week.card ≤ 8 :=
      hcard8 ▸ Finset.card_le_card hdow
    have hge : 7 ≤ F.days_of_week.card := by
      rcases hcov 0 (by decide) with h0 | ⟨_, h7⟩
      · have hsub : ({0, 1, 2, 3, 4, 5, 6} : Finset ℤ) ⊆ F.days_of_week := by
          intro x hx
          simp only [Finset.mem_insert, Finset.mem_singleton] at hx
          rcases hx with rfl | rfl | rfl | rfl | rfl | rfl | rfl <;>
            assumption
        calc (7 : ℕ) = ({0, 1, 2, 3, 4, 5, 6} : Finset ℤ).card := by decide
          _ ≤ F.days_of_week.card := Finset.card_le_card hsub
      · have hsub : ({1, 2, 3, 4, 5, 6, 7} : Finset ℤ) ⊆ F.days_of_week := by
          intro x hx
          simp only [Finset.mem_insert, Finset.mem_singleton] at hx
          rcases hx with rfl | rfl | rfl | rfl | rfl | rfl | rfl <;>
            assumption
        calc (7 : ℕ) = ({1, 2, 3, 4, 5, 6, 7} : Finset ℤ).card := by decide
          _ ≤ F.days_of_week.card := Finset.card_le_card hsub
    have : F.days_of_week.card = 7 ∨ F.days_of_week.card = 8 := by omega
    rcases this with h | h <;> simp [is_dow_wildcard, h]
  · intro ha hb; simp [dayCriteria, ha, hb]
  · intro ha hb; simp [dayCriteria, ha, hb]
  · intro ha hb; simp [dayCriteria, ha, hb]
  · intro ha hb; simp [dayCriteria, ha, hb]

/-- Witness for the amended C6 at `⟨{0}, {0}, {1}, 1..12, {1}⟩` (neither
day field a wildcard) and day index 0 (1970-01-01, a Thursday, mday 1). -/
theorem day_match_or_semantics_witness :
    (({1} : Finset ℤ) ⊆ Finset.Icc 1 31) ∧
    (({1} : Finset ℤ) ⊆ Finset.Icc 0 7) ∧
    ((is_dom_wildcard ⟨{0}, {0}, {1}, Finset.Icc 1 12, {1}⟩ = true ↔
        dom_wildcard_spec ⟨{0}, {0}, {1}, Finset.Icc 1 12, {1}⟩) ∧
      (dow_wildcard_spec ⟨{0}, {0}, {1}, Finset.Icc 1 12, {1}⟩ →
        is_dow_wildcard ⟨{0}, {0}, {1}, Finset.Icc 1 12, {1}⟩ = true) ∧
      (is_dom_wildcard ⟨{0}, {0}, {1}, Finset.Icc 1 12, {1}⟩ = true →
        is_dow_wildcard ⟨{0}, {0}, {1}, Finset.Icc 1 12, {1}⟩ = true →
        dayCriteria ⟨{0}, {0}, {1}, Finset.Icc 1 12, {1}⟩ 0 = true) ∧
      (is_dom_wildcard ⟨{0}, {0}, {1}, Finset.Icc 1 12, {1}⟩ = true →
        is_dow_wildcard ⟨{0}, {0}, {1}, Finset.Icc 1 12, {1}⟩ = false →
        (dayCriteria ⟨{0}, {0}, {1}, Finset.Icc 1 12, {1}⟩ 0 = true ↔
          (currentDow ⟨{0}, {0}, {1}, Finset.Icc 1 12, {1}⟩ 0 : ℤ) ∈
            ({1} : Finset ℤ))) ∧
      (is_dom_wildcard ⟨{0}, {0}, {1}, Finset.Icc 1 12, {1}⟩ = false →
        is_dow_wildcard ⟨{0}, {0}, {1}, Finset.Icc 1 12, {1}⟩ = true →
        (dayCriteria ⟨{0}, {0}, {1}, Finset.Icc 1 12, {1}⟩ 0 = true ↔
          (mdayOfDay 0 : ℤ) ∈ ({1} : Finset ℤ))) ∧
      (is_dom_wildcard ⟨{0}, {0}, {1}, Finset.Icc 1 12, {1}⟩ = false →
        is_dow_wildcard ⟨{0}, {0}, {1}, Finset.Icc 1 12, {1}⟩ = false →
        (dayCriteria ⟨{0}, {0}, {1}, Finset.Icc 1 12, {1}⟩ 0 = true ↔
          ((mdayOfDay 0 : ℤ) ∈ ({1} : Finset ℤ) ∨
            (currentDow ⟨{0}, {0}, {1}, Finset.Icc 1 12, {1}⟩ 0 : ℤ) ∈
              ({1} : Finset ℤ))))) :=
  ⟨by decide, by decide,
    day_match_or_semantics ⟨{0}, {0}, {1}, Finset.Icc 1 12, {1}⟩ 0
      (by decide) (by decide)⟩

/-- An expression whose minute set lies outside 0..59 can never be
satisfied: every iteration of the search loop advances (the final
minute-membership check always fails), so the fuelled search returns
`none` for every fuel and cursor. -/
theorem nextAux_oob_none : ∀ (fuel cur : ℕ),
    nextAux oobFields fuel cur = none := by
  intro fuel
  induction fuel with
  | zero => intro cur; rfl
  | succ n ih =>
    intro cur
    have hmin : ¬ ((minuteOf cur : ℤ) ∈ oobFields.minutes) := by
      have : minuteOf cur < 60 := Nat.mod_lt _ (by norm_num)
      simp only [oobFields, Finset.mem_Icc]
      omega
    simp only [nextAux, if_neg hmin]
    split
    · split
      · split
        · exact ih _
        · exact ih _
      · exact ih _
    · exact ih _

/-- C10: `CronScheduler::add_job` returns `false` (leaving the job map
unchanged) exactly for a duplicate id or a cron-syntax error
(`std::invalid_argument`, the only exception its catch handles); when the
expression parses but the initial next-fire search exhausts the two-year
iteration guard, the `std::runtime_error` thrown by `get_next_runtime`
propagates out of `add_job` instead of being converted to `false`; and on
success the job is stored with its computed next-fire. -/
theorem add_job_outcomes (jobs : List String) (jobId : String)
    (cron : List Char) (now : ℕ) :
    ((add_job jobs jobId cron now).1 = .returnedFalse ↔
      jobId ∈ jobs ∨ parse cron = .error .invalidArg) ∧
    ((add_job jobs jobId cron now).1 = .returnedFalse →
      (add_job jobs jobId cron now).2 = jobs) ∧
    (∀ F, jobId ∉ jobs → parse cron = .ok F →
      get_next_runtime F now = none →
      add_job jobs jobId cron now = (.raisedRuntimeError, jobs)) ∧
    (∀ F r, jobId ∉ jobs → parse cron = .ok F →
      get_next_runtime F now = some r →
      add_job jobs jobId cron now = (.added r, jobId :: jobs)) := by
  refine ⟨?_, ?_, ?_, ?_⟩
  · by_cases hdup : jobId ∈ jobs
    · simp [add_job, hdup]
    · rcases hp : parse cron with e | F
      · cases e <;> simp [add_job, hdup, hp]
      · rcases hn : get_next_runtime F now with _ | r <;>
          simp [add_job, hdup, hp, hn]
  · by_cases hdup : jobId ∈ jobs
    · simp [add_job, hdup]
    · rcases hp : parse cron with e | F
      · cases e <;> simp [add_job, hdup, hp]
      · rcases hn : get_next_runtime F now with _ | r <;>
          simp [add_job, hdup, hp, hn]
  · intro F hdup hp hn; simp [add_job, hdup, hp, hn]
  · intro F r hdup hp hn; simp [add_job, hdup, hp, hn]

/-- Witness for C10 at the empty job map, id `j1`, the parseable but
unsatisfiable expression `60-70 * * * *` and reference instant 0: the
two-year guard is exhausted and the modelled runtime error propagates. -/
theorem add_job_outcomes_witness :
    ("j1" ∉ ([] : List String)) ∧
    parse ("60-70 * * * *".toList) = .ok oobFields ∧
    get_next_runtime oobFields 0 = none ∧
    add_job [] "j1" ("60-70 * * * *".toList) 0 =
      (.raisedRuntimeError, []) :=
  ⟨by decide, by decide, nextAux_oob_none searchBound 0,
    (add_job_outcomes [] "j1" ("60-70 * * * *".toList) 0).2.2.1 oobFields
      (by decide) (by decide) (nextAux_oob_none searchBound 0)⟩

end Cron

namespace Concurrent

/-- A closed channel with a value at the queue front dequeues that value:
`(v, true)` with the front removed (the rendezvous receiver registration
is undone before returning, leaving the waiter count unchanged). -/
theorem receive_closed_cons {α : Type} [Inhabited α] (c : Chan α) (v : α)
    (rest : List α) (hc : c.closed = true) (hd : c.data = v :: rest) :
    receive c = some ((v, true), { c with data := rest }) := by
  obtain ⟨cl, cap, data, w⟩ := c
  simp only at hc hd
  subst hc hd
  by_cases hcap : cap = 0
  · subst hcap
    simp [receive]
  · simp [receive, hcap]

/-- A closed channel with an empty queue reports `(zero, false)` and is
left in exactly its prior state. -/
theorem receive_closed_nil {α : Type} [Inhabited α] (c : Chan α)
    (hc : c.closed = true) (hd : c.data = []) :
    receive c = some ((default, false), c) := by
  obtain ⟨cl, cap, data, w⟩ := c
  simp only at hc hd
  subst hc hd
  by_cases hcap : cap = 0
  · subst hcap
    simp [receive]
  · simp [receive, hcap]

/-- Draining a closed channel returns its buffered values in FIFO
order. -/
theorem drain_closed {α : Type} [Inhabited α] :
    ∀ (l : List α) (c : Chan α), c.closed = true → c.data = l →
      drain l.length c = l := by
  intro l
  induction l with
  | nil => intro c hc hd; rfl
  | cons v rest ih =>
    intro c hc hd
    have hrec := receive_closed_cons c v rest hc hd
    simp only [List.length_cons, drain, hrec]
    exact congrArg (v :: ·) (ih { c with data := rest } (by simp [hc]) rfl)

/-- C8: on a channel in any state with `closed` set, every `send` fails
with the closed-channel error before touching the queue; `receive`
dequeues the remaining buffered values in FIFO order (the front first,
then, by iteration, the rest) and once the queue is empty returns
`(zero-value, false)` with the state unchanged (hence forever); and
`close` on the already-closed channel changes nothing (and, modelling the
early `return`, cannot throw). -/
theorem channel_closed_semantics {α : Type} [Inhabited α] (c : Chan α)
    (hclosed : c.closed = true) :
    (∀ v, send c v = .closedErr c) ∧
    (∀ v rest, c.data = v :: rest →
      receive c = some ((v, true), { c with data := rest })) ∧
    (c.data = [] → receive c = some ((default, false), c)) ∧
    drain c.data.length c = c.data ∧
    close c = c := by
  refine ⟨?_, ?_, ?_, ?_, ?_⟩
  · intro v; simp [send, hclosed]
  · intro v rest hd; exact receive_closed_cons c v rest hclosed hd
  · intro hd; exact receive_closed_nil c hclosed hd
  · exact drain_closed c.data c hclosed rfl
  · simp [close, hclosed]

/-- Witness for C8 at a closed rendezvous channel buffering `[10, 20]`:
sends fail, the buffer drains in order, and closing again is a no-op. -/
theorem channel_closed_semantics_witness :
    (⟨true, 0, [(10 : ℤ), 20], 0⟩ : Chan ℤ).closed = true ∧
    ((∀ v, send (⟨true, 0, [(10 : ℤ), 20], 0⟩ : Chan ℤ) v =
        .closedErr ⟨true, 0, [(10 : ℤ), 20], 0⟩) ∧
      (∀ v rest, (⟨true, 0, [(10 : ℤ), 20], 0⟩ : Chan ℤ).data = v :: rest →
        receive (⟨true, 0, [(10 : ℤ), 20], 0⟩ : Chan ℤ) =
          some ((v, true), ⟨true, 0, rest, 0⟩)) ∧
      ((⟨true, 0, [(10 : ℤ), 20], 0⟩ : Chan ℤ).data = [] →
        receive (⟨true, 0, [(10 : ℤ), 20], 0⟩ : Chan ℤ) =
          some ((default, false), ⟨true, 0, [(10 : ℤ), 20], 0⟩)) ∧
      drain 2 (⟨true, 0, [(10 : ℤ), 20], 0⟩ : Chan ℤ) = [10, 20] ∧
      close (⟨true, 0, [(10 : ℤ), 20], 0⟩ : Chan ℤ) =
        ⟨true, 0, [(10 : ℤ), 20], 0⟩) :=
  ⟨rfl, channel_closed_semantics (⟨true, 0, [(10 : ℤ), 20], 0⟩ : Chan ℤ) rfl⟩

end Concurrent

namespace Net

/-- C2 counterexample: a request whose header block has no
`Content-Length` header is not answered with 400 — the length defaults to
0 and handling proceeds toward routing, contrary to the claim's
"missing ... → 400". -/
theorem missing_content_length_proceeds :
    content_length_step [("Host", "example.com")] [] (fun _ => false)
      (fun _ => "") = .ok 0 := rfl

/-- C2 amended: a missing `Content-Length` header is treated as length 0
and the request proceeds to routing; a present but unparseable value
(`std::stol` throws) is answered with the built-in 400 response and the
connection closes without routing; a parseable value is used as the body
length. -/
theorem content_length_step_spec (request_headers : List (String × String))
    (eh : List (ℤ × String)) (fo : String → Bool) (fc : String → String) :
    (request_headers.find? (·.1 = "Content-Length") = none →
      content_length_step request_headers eh fo fc = .ok 0) ∧
    (∀ nm v, request_headers.find? (·.1 = "Content-Length") = some (nm, v) →
      Purple.stoi v.toList = none →
      content_length_step request_headers eh fo fc =
        .error (handle_error eh fo fc 400
          "Bad Request: Invalid Content-Length header.")) ∧
    (∀ nm v k,
      request_headers.find? (·.1 = "Content-Length") = some (nm, v) →
      Purple.stoi v.toList = some k →
      content_length_step request_headers eh fo fc = .ok k) := by
  refine ⟨?_, ?_, ?_⟩
  · intro h; simp [content_length_step, h]
  · intro nm v h1 h2
    simp only [String.toList] at h2
    simp [content_length_step, h1, h2]
  · intro nm v k h1 h2
    simp only [String.toList] at h2
    simp [content_length_step, h1, h2]

/-- Witness for the amended C2 at a header block whose `Content-Length`
is the unparseable `abc`: the step yields the built-in 400 response. -/
theorem content_length_step_spec_witness :
    ([("Content-Length", "abc")].find? (·.1 = "Content-Length") =
      some (("Content-Length", "abc"))) ∧
    Purple.stoi ("abc".toList) = none ∧
    content_length_step [("Content-Length", "abc")] [] (fun _ => false)
      (fun _ => "") =
      .error (handle_error [] (fun _ => false) (fun _ => "") 400
        "Bad Request: Invalid Content-Length header.") :=
  ⟨rfl, rfl,
    (content_length_step_spec [("Content-Length", "abc")] [] (fun _ => false)
      (fun _ => "")).2.1 "Content-Length" "abc" rfl rfl⟩

/-- C9 counterexample: the built-in 400 error response carries the reason
phrase `Not Found` (the `handle_error` default), not the standard
`Bad Request` the claim asserts, and its serialized status line reads
`HTTP/1.1 400 Not Found`. -/
theorem built_in_400_reason_not_bad_request :
    (handle_error [] (fun _ => false) (fun _ => "")
      400 "Bad Request: Invalid Content-Length header.").status_message =
        "Not Found" ∧
    ¬ ((handle_error [] (fun _ => false) (fun _ => "")
      400 "Bad Request: Invalid Content-Length header.").status_message =
        "Bad Request") ∧
    (build_response_str (handle_error [] (fun _ => false) (fun _ => "")
      400 "Bad Request: Invalid Content-Length header.")).take 22 =
        "HTTP/1.1 400 Not Found" := by
  refine ⟨rfl, by decide, rfl⟩

/-- C9 amended: with no error page registered, `handle_error` emits the
standard reason phrases for 404 (`Not Found`) and 500
(`Internal Server Error`), while every other status code — including
400 — receives the default phrase `Not Found`; the default-constructed
response (used for 200 paths) carries `OK`. -/
theorem handle_error_reason_phrases (fo : String → Bool)
    (fc : String → String) (code : ℤ) (msg : String) :
    ((handle_error [] fo fc 404 msg).status_message = "Not Found") ∧
    ((handle_error [] fo fc 500 msg).status_message =
      "Internal Server Error") ∧
    (code ≠ 404 → code ≠ 500 →
      (handle_error [] fo fc code msg).status_message = "Not Found") ∧
    Response.mkDefault.status_message = "OK" ∧
    Response.mkDefault.status_code = 200 := by
  refine ⟨?_, ?_, ?_, rfl, rfl⟩
  · simp [handle_error]
  · simp [handle_error]
  · intro h1 h2; simp [handle_error, h1, h2]

/-- Witness for the amended C9 at status code 400. -/
theorem handle_error_reason_phrases_witness :
    ((400 : ℤ) ≠ 404) ∧ ((400 : ℤ) ≠ 500) ∧
    (handle_error [] (fun _ => false) (fun _ => "") 400
      "x").status_message = "Not Found" :=
  ⟨by decide, by decide,
    (handle_error_reason_phrases (fun _ => false) (fun _ => "") 400
      "x").2.2.1 (by decide) (by decide)⟩

end Net

end Purple

